import Mathlib

/-!
# Verification of the butterfly-services exchange signing / nonce subsystem

A shallow embedding, in Lean 4, of the request-signing, nonce-generation,
clock-synchronization and adapter-policy code of the `butterfly-services`
repository (`src/services/kraken-api-service.ts`, `mexc-api-service.ts`,
`exchange-api-service.ts`, `exchange-time-syncer.ts`,
`base-exchange-service.ts`, `env-service.ts`).

Conventions of the embedding:

* Machine numbers (JavaScript `number` holding integer millisecond
  timestamps and nonces) are modelled as `Nat` (or `Int` where a
  difference can be negative); all values arising stay far below 2^53, so
  JavaScript integer arithmetic is exact and agrees with `Nat`/`Int`.
* Byte strings are `List Nat` with every element a byte value.  `node:crypto`
  hash primitives (SHA-256, SHA-512, HMAC) are implemented concretely below,
  following FIPS 180-4 / FIPS 198-1, which is what OpenSSL computes for the
  TypeScript code.  Node `Buffer` base64 decoding is lenient (characters
  outside the alphabet are skipped); the decoder below reproduces that.
* Stateful methods (the shared nonce counters, the cached clock offset)
  become explicit state-passing functions: the mutable field appears as an
  input and as a component of the result.
* Fallible code returns `Except String α`; JavaScript `throw` of an `Error`
  is `Except.error` carrying the message.
* Methods that perform network I/O are modelled up to the point the claims
  need: the sequence of transport invocations is returned explicitly as a
  `List NetCall` trace.
-/

/-! ## Bytes, words, and encodings -/

/-- UTF-8 encoding of one character (the encoding `node:crypto` applies to
string inputs of `update`). -/
def utf8EncodeChar (c : Char) : List Nat :=
  let n := c.toNat
  if n < 0x80 then [n]
  else if n < 0x800 then
    [0xC0 ||| (n >>> 6), 0x80 ||| (n &&& 0x3F)]
  else if n < 0x10000 then
    [0xE0 ||| (n >>> 12), 0x80 ||| ((n >>> 6) &&& 0x3F), 0x80 ||| (n &&& 0x3F)]
  else
    [0xF0 ||| (n >>> 18), 0x80 ||| ((n >>> 12) &&& 0x3F),
     0x80 ||| ((n >>> 6) &&& 0x3F), 0x80 ||| (n &&& 0x3F)]

/-- UTF-8 bytes of a string. -/
def strBytes (s : String) : List Nat :=
  (s.data.map utf8EncodeChar).flatten

/-- Hexadecimal digit for a value `0 ≤ n < 16`, lowercase as Node's
`digest('hex')` produces. -/
def hexDigit (n : Nat) : Char :=
  if n < 10 then Char.ofNat (48 + n) else Char.ofNat (87 + n)

/-- Lowercase hexadecimal rendering of a byte list (`Buffer.toString('hex')`). -/
def hexEncode (bytes : List Nat) : String :=
  ⟨bytes.flatMap fun b => [hexDigit (b / 16), hexDigit (b % 16)]⟩

/-- The base64 alphabet character of a 6-bit value. -/
def base64Char (n : Nat) : Char :=
  if n < 26 then Char.ofNat (65 + n)
  else if n < 52 then Char.ofNat (97 + (n - 26))
  else if n < 62 then Char.ofNat (48 + (n - 52))
  else if n = 62 then '+'
  else '/'

/-- Standard base64 encoding with padding (`Buffer.toString('base64')`). -/
def base64EncodeChars : List Nat → List Char
  | [] => []
  | [a] =>
    [base64Char (a / 4), base64Char ((a % 4) * 16), '=', '=']
  | [a, b] =>
    [base64Char (a / 4), base64Char ((a % 4) * 16 + b / 16),
     base64Char ((b % 16) * 4), '=']
  | a :: b :: c :: rest =>
    base64Char (a / 4) :: base64Char ((a % 4) * 16 + b / 16) ::
    base64Char ((b % 16) * 4 + c / 64) :: base64Char (c % 64) ::
    base64EncodeChars rest

/-- Base64 encoding as a string. -/
def base64Encode (bytes : List Nat) : String :=
  ⟨base64EncodeChars bytes⟩

/-- Value of a base64 alphabet character; `none` for anything else
(including padding). -/
def base64Val (c : Char) : Option Nat :=
  let n := c.toNat
  if 65 ≤ n ∧ n ≤ 90 then some (n - 65)
  else if 97 ≤ n ∧ n ≤ 122 then some (n - 97 + 26)
  else if 48 ≤ n ∧ n ≤ 57 then some (n - 48 + 52)
  else if c = '+' then some 62
  else if c = '/' then some 63
  else none

/-- Decode a list of 6-bit groups into bytes; a trailing group of fewer than
four values yields the bytes that are fully determined, as Node does. -/
def base64Groups : List Nat → List Nat
  | a :: b :: c :: d :: rest =>
    (a * 4 + b / 16) :: ((b % 16) * 16 + c / 4) :: ((c % 4) * 64 + d) ::
    base64Groups rest
  | [a, b, c] =>
    [a * 4 + b / 16, (b % 16) * 16 + c / 4]
  | [a, b] =>
    [a * 4 + b / 16]
  | _ => []

/-- Lenient base64 decoding in the manner of `Buffer.from(s, 'base64')`:
characters outside the alphabet (including `=` padding and any malformed
content) are skipped, and however many 6-bit groups remain are decoded.
A string with no alphabet characters at all decodes to the empty key. -/
def base64Decode (s : String) : List Nat :=
  base64Groups (s.data.filterMap base64Val)

/-! ## SHA-256 (FIPS 180-4), on `Nat` with explicit 32-bit wrap-around -/

/-- Word mask `2^32`. -/
def w32 : Nat := 4294967296

/-- Addition of 32-bit words with wrap-around. -/
def add32 (a b : Nat) : Nat := (a + b) % w32

/-- Right rotation of a 32-bit word. -/
def rotr32 (x n : Nat) : Nat := ((x >>> n) ||| (x <<< (32 - n))) % w32

/-- The function `Ch(x,y,z)` on 32-bit words. -/
def ch32 (x y z : Nat) : Nat := (x &&& y) ^^^ ((x ^^^ (w32 - 1)) &&& z)

/-- The function `Maj(x,y,z)` on 32-bit words. -/
def maj32 (x y z : Nat) : Nat := (x &&& y) ^^^ (x &&& z) ^^^ (y &&& z)

/-- The SHA-256 function `Σ₀`. -/
def bsig0 (x : Nat) : Nat := rotr32 x 2 ^^^ rotr32 x 13 ^^^ rotr32 x 22

/-- The SHA-256 function `Σ₁`. -/
def bsig1 (x : Nat) : Nat := rotr32 x 6 ^^^ rotr32 x 11 ^^^ rotr32 x 25

/-- The SHA-256 function `σ₀`. -/
def ssig0 (x : Nat) : Nat := rotr32 x 7 ^^^ rotr32 x 18 ^^^ (x >>> 3)

/-- The SHA-256 function `σ₁`. -/
def ssig1 (x : Nat) : Nat := rotr32 x 17 ^^^ rotr32 x 19 ^^^ (x >>> 10)

/-- The 64 SHA-256 round constants. -/
def k256 : List Nat :=
  [1116352408, 1899447441, 3049323471, 3921009573,
   961987163, 1508970993, 2453635748, 2870763221,
   3624381080, 310598401, 607225278, 1426881987,
   1925078388, 2162078206, 2614888103, 3248222580,
   3835390401, 4022224774, 264347078, 604807628,
   770255983, 1249150122, 1555081692, 1996064986,
   2554220882, 2821834349, 2952996808, 3210313671,
   3336571891, 3584528711, 113926993, 338241895,
   666307205, 773529912, 1294757372, 1396182291,
   1695183700, 1986661051, 2177026350, 2456956037,
   2730485921, 2820302411, 3259730800, 3345764771,
   3516065817, 3600352804, 4094571909, 275423344,
   430227734, 506948616, 659060556, 883997877,
   958139571, 1322822218, 1537002063, 1747873779,
   1955562222, 2024104815, 2227730452, 2361852424,
   2428436474, 2756734187, 3204031479, 3329325298]

/-- Eight-word hash state shared by the SHA-2 family. -/
structure ShaState where
  a : Nat
  b : Nat
  c : Nat
  d : Nat
  e : Nat
  f : Nat
  g : Nat
  h : Nat

/-- SHA-256 initial state. -/
def iv256 : ShaState :=
  ⟨0x6a09e667, 0xbb67ae85, 0x3c6ef372, 0xa54ff53a,
   0x510e527f, 0x9b05688c, 0x1f83d9ab, 0x5be0cd19⟩

/-- Big-endian bytes of a word, most significant first, `n` bytes. -/
def beBytes : Nat → Nat → List Nat
  | 0, _ => []
  | n + 1, x => (x >>> (8 * n)) % 256 :: beBytes n x

/-- Group a byte list into big-endian words of `bytesPerWord` bytes;
structural fuel recursion over the list length. -/
def bytesToWordsAux (bytesPerWord : Nat) : Nat → List Nat → List Nat
  | 0, _ => []
  | _, [] => []
  | fuel + 1, l =>
    (l.take bytesPerWord).foldl (fun acc b => acc * 256 + b) 0 ::
    bytesToWordsAux bytesPerWord fuel (l.drop bytesPerWord)

/-- Group a byte list into big-endian words. -/
def bytesToWords (bytesPerWord : Nat) (l : List Nat) : List Nat :=
  bytesToWordsAux bytesPerWord l.length l

/-- Merkle–Damgård padding: `0x80`, zeros to `blockLen - lenBytes` modulo
`blockLen`, then the big-endian bit length in `lenBytes` bytes. -/
def shaPad (blockLen lenBytes : Nat) (msg : List Nat) : List Nat :=
  let padZeros := (blockLen - lenBytes + blockLen - (msg.length + 1) % blockLen) % blockLen
  msg ++ 0x80 :: List.replicate padZeros 0 ++ beBytes lenBytes (msg.length * 8)

/-- Extend a reversed message-schedule word list by one SHA-256 word. -/
def schedStep256 (rev : List Nat) : Nat :=
  add32 (add32 (ssig1 (rev.getD 1 0)) (rev.getD 6 0))
        (add32 (ssig0 (rev.getD 14 0)) (rev.getD 15 0))

/-- Extend the reversed schedule by `n` SHA-256 words. -/
def extendSched256 (rev : List Nat) : Nat → List Nat
  | 0 => rev
  | n + 1 => extendSched256 (schedStep256 rev :: rev) n

/-- The 64-word SHA-256 message schedule of a 64-byte block. -/
def schedule256 (block : List Nat) : List Nat :=
  (extendSched256 (bytesToWords 4 block).reverse 48).reverse

/-- One SHA-256 round, consuming a round constant and a schedule word. -/
def round256 (st : ShaState) (kw : Nat × Nat) : ShaState :=
  let t1 := add32 (add32 (add32 st.h (bsig1 st.e)) (add32 (ch32 st.e st.f st.g) kw.1)) kw.2
  let t2 := add32 (bsig0 st.a) (maj32 st.a st.b st.c)
  ⟨add32 t1 t2, st.a, st.b, st.c, add32 st.d t1, st.e, st.f, st.g⟩

/-- SHA-256 compression of one 64-byte block into the chaining state. -/
def compress256 (st : ShaState) (block : List Nat) : ShaState :=
  let fin := (k256.zip (schedule256 block)).foldl round256 st
  ⟨add32 st.a fin.a, add32 st.b fin.b, add32 st.c fin.c, add32 st.d fin.d,
   add32 st.e fin.e, add32 st.f fin.f, add32 st.g fin.g, add32 st.h fin.h⟩

/-- Split a list into chunks of `k` elements (fuel recursion; the padded
message length is an exact multiple of the block size). -/
def chunksAux (k : Nat) : Nat → List Nat → List (List Nat)
  | 0, _ => []
  | _, [] => []
  | fuel + 1, l => l.take k :: chunksAux k fuel (l.drop k)

/-- Split a list into chunks of `k` elements. -/
def chunks (k : Nat) (l : List Nat) : List (List Nat) :=
  chunksAux k l.length l

/-- Serialize a hash state as big-endian words of `bytesPerWord` bytes. -/
def stateBytes (bytesPerWord : Nat) (st : ShaState) : List Nat :=
  beBytes bytesPerWord st.a ++ beBytes bytesPerWord st.b ++
  beBytes bytesPerWord st.c ++ beBytes bytesPerWord st.d ++
  beBytes bytesPerWord st.e ++ beBytes bytesPerWord st.f ++
  beBytes bytesPerWord st.g ++ beBytes bytesPerWord st.h

/-- SHA-256 of a byte list: 32-byte digest. -/
def sha256 (msg : List Nat) : List Nat :=
  stateBytes 4 ((chunks 64 (shaPad 64 8 msg)).foldl compress256 iv256)

/-! ## SHA-512 (FIPS 180-4), on `Nat` with explicit 64-bit wrap-around -/

/-- Word mask `2^64`. -/
def w64 : Nat := 18446744073709551616

/-- Addition of 64-bit words with wrap-around. -/
def add64 (a b : Nat) : Nat := (a + b) % w64

/-- Right rotation of a 64-bit word. -/
def rotr64 (x n : Nat) : Nat := ((x >>> n) ||| (x <<< (64 - n))) % w64

/-- The function `Ch(x,y,z)` on 64-bit words. -/
def ch64 (x y z : Nat) : Nat := (x &&& y) ^^^ ((x ^^^ (w64 - 1)) &&& z)

/-- The function `Maj(x,y,z)` on 64-bit words. -/
def maj64 (x y z : Nat) : Nat := (x &&& y) ^^^ (x &&& z) ^^^ (y &&& z)

/-- The SHA-512 function `Σ₀`. -/
def bsig0L (x : Nat) : Nat := rotr64 x 28 ^^^ rotr64 x 34 ^^^ rotr64 x 39

/-- The SHA-512 function `Σ₁`. -/
def bsig1L (x : Nat) : Nat := rotr64 x 14 ^^^ rotr64 x 18 ^^^ rotr64 x 41

/-- The SHA-512 function `σ₀`. -/
def ssig0L (x : Nat) : Nat := rotr64 x 1 ^^^ rotr64 x 8 ^^^ (x >>> 7)

/-- The SHA-512 function `σ₁`. -/
def ssig1L (x : Nat) : Nat := rotr64 x 19 ^^^ rotr64 x 61 ^^^ (x >>> 6)

/-- The 80 SHA-512 round constants. -/
def k512 : List Nat :=
  [4794697086780616226, 8158064640168781261, 13096744586834688815, 16840607885511220156,
   4131703408338449720, 6480981068601479193, 10538285296894168987, 12329834152419229976,
   15566598209576043074, 1334009975649890238, 2608012711638119052, 6128411473006802146,
   8268148722764581231, 9286055187155687089, 11230858885718282805, 13951009754708518548,
   16472876342353939154, 17275323862435702243, 1135362057144423861, 2597628984639134821,
   3308224258029322869, 5365058923640841347, 6679025012923562964, 8573033837759648693,
   10970295158949994411, 12119686244451234320, 12683024718118986047, 13788192230050041572,
   14330467153632333762, 15395433587784984357, 489312712824947311, 1452737877330783856,
   2861767655752347644, 3322285676063803686, 5560940570517711597, 5996557281743188959,
   7280758554555802590, 8532644243296465576, 9350256976987008742, 10552545826968843579,
   11727347734174303076, 12113106623233404929, 14000437183269869457, 14369950271660146224,
   15101387698204529176, 15463397548674623760, 17586052441742319658, 1182934255886127544,
   1847814050463011016, 2177327727835720531, 2830643537854262169, 3796741975233480872,
   4115178125766777443, 5681478168544905931, 6601373596472566643, 7507060721942968483,
   8399075790359081724, 8693463985226723168, 9568029438360202098, 10144078919501101548,
   10430055236837252648, 11840083180663258601, 13761210420658862357, 14299343276471374635,
   14566680578165727644, 15097957966210449927, 16922976911328602910, 17689382322260857208,
   500013540394364858, 748580250866718886, 1242879168328830382, 1977374033974150939,
   2944078676154940804, 3659926193048069267, 4368137639120453308, 4836135668995329356,
   5532061633213252278, 6448918945643986474, 6902733635092675308, 7801388544844847127]

/-- SHA-512 initial state. -/
def iv512 : ShaState :=
  ⟨0x6a09e667f3bcc908, 0xbb67ae8584caa73b, 0x3c6ef372fe94f82b, 0xa54ff53a5f1d36f1,
   0x510e527fade682d1, 0x9b05688c2b3e6c1f, 0x1f83d9abfb41bd6b, 0x5be0cd19137e2179⟩

/-- Extend a reversed message-schedule word list by one SHA-512 word. -/
def schedStep512 (rev : List Nat) : Nat :=
  add64 (add64 (ssig1L (rev.getD 1 0)) (rev.getD 6 0))
        (add64 (ssig0L (rev.getD 14 0)) (rev.getD 15 0))

/-- Extend the reversed schedule by `n` SHA-512 words. -/
def extendSched512 (rev : List Nat) : Nat → List Nat
  | 0 => rev
  | n + 1 => extendSched512 (schedStep512 rev :: rev) n

/-- The 80-word SHA-512 message schedule of a 128-byte block. -/
def schedule512 (block : List Nat) : List Nat :=
  (extendSched512 (bytesToWords 8 block).reverse 64).reverse

/-- One SHA-512 round, consuming a round constant and a schedule word. -/
def round512 (st : ShaState) (kw : Nat × Nat) : ShaState :=
  let t1 := add64 (add64 (add64 st.h (bsig1L st.e)) (add64 (ch64 st.e st.f st.g) kw.1)) kw.2
  let t2 := add64 (bsig0L st.a) (maj64 st.a st.b st.c)
  ⟨add64 t1 t2, st.a, st.b, st.c, add64 st.d t1, st.e, st.f, st.g⟩

/-- SHA-512 compression of one 128-byte block into the chaining state. -/
def compress512 (st : ShaState) (block : List Nat) : ShaState :=
  let fin := (k512.zip (schedule512 block)).foldl round512 st
  ⟨add64 st.a fin.a, add64 st.b fin.b, add64 st.c fin.c, add64 st.d fin.d,
   add64 st.e fin.e, add64 st.f fin.f, add64 st.g fin.g, add64 st.h fin.h⟩

/-- SHA-512 of a byte list: 64-byte digest. -/
def sha512 (msg : List Nat) : List Nat :=
  stateBytes 8 ((chunks 128 (shaPad 128 16 msg)).foldl compress512 iv512)

/-! ## HMAC (FIPS 198-1) -/

/-- Generic HMAC over a hash with the given block size. -/
def hmac (hash : List Nat → List Nat) (blockLen : Nat) (key msg : List Nat) : List Nat :=
  let k0 := if blockLen < key.length then hash key else key
  let kp := k0 ++ List.replicate (blockLen - k0.length) 0
  hash ((kp.map (Nat.xor 0x5c)) ++ hash ((kp.map (Nat.xor 0x36)) ++ msg))

/-- HMAC-SHA256 (what `createHmac('sha256', …)` computes). -/
def hmacSha256 (key msg : List Nat) : List Nat := hmac sha256 64 key msg

/-- HMAC-SHA512 (what `createHmac('sha512', …)` computes). -/
def hmacSha512 (key msg : List Nat) : List Nat := hmac sha512 128 key msg

/-! ## Clock synchronizer (`ExchangeTimeSyncer`, exchange-time-syncer.ts) -/

/-- State of an `ExchangeTimeSyncer`: the cached offset between the
exchange's server clock and the local clock, in milliseconds. -/
structure ExchangeTimeSyncer where
  cachedTimeOffset : Int

/-- A freshly constructed syncer: `private cachedTimeOffset: number = 0`. -/
def ExchangeTimeSyncer.new : ExchangeTimeSyncer :=
  ⟨0⟩

/-- The method `initFromServer(serverTime)`: stores
`serverTime - Date.now()`, discarding any previous offset.  `localNow` is
the value `Date.now()` reads at the moment of the call. -/
def ExchangeTimeSyncer.initFromServer (_st : ExchangeTimeSyncer)
    (serverTime localNow : Int) : ExchangeTimeSyncer :=
  ⟨serverTime - localNow⟩

/-- The method `getSynchronizedTimestamp()`: `Date.now() + this.cachedTimeOffset`. -/
def ExchangeTimeSyncer.getSynchronizedTimestamp (st : ExchangeTimeSyncer)
    (localNow : Int) : Int :=
  localNow + st.cachedTimeOffset

/-- The method `now()`: delegates to `getSynchronizedTimestamp()`. -/
def ExchangeTimeSyncer.now (st : ExchangeTimeSyncer) (localNow : Int) : Int :=
  st.getSynchronizedTimestamp localNow

/-- The method `getTimestampString()`: `this.now().toString()`. -/
def ExchangeTimeSyncer.getTimestampString (st : ExchangeTimeSyncer)
    (localNow : Int) : String :=
  toString (st.now localNow)

/-! ## Nonce generators (kraken-api-service.ts, mexc-api-service.ts) -/

/-- The method `KrakenApiService.generateUniqueNonce()` acting on the shared
static counter `globalLastNonce`.  `now` is the `Date.now()` reading of the
call.  Returns the issued nonce and the updated counter:
`globalLastNonce = Math.max(Date.now(), globalLastNonce + 1)`. -/
def generateUniqueNonce (now lastNonce : Nat) : Nat × Nat :=
  let updated := max now (lastNonce + 1)
  (updated, updated)

/-- The method `MexcApiService.ensureUniqueNonce(timestamp)` acting on the
instance counter `lastNonce`: if the synchronized timestamp does not exceed
the last nonce, increment the counter, otherwise jump to the timestamp. -/
def ensureUniqueNonce (timestamp lastNonce : Nat) : Nat × Nat :=
  if timestamp ≤ lastNonce then (lastNonce + 1, lastNonce + 1)
  else (timestamp, timestamp)

/-- A sequence of nonce-generator calls by a step function: `clocks` lists
the wall-clock (or synchronized-clock) reading observed by each call in
issuance order.  Each entry of the result records the counter value the
call observed (its pre-state) and the nonce it returned.  One list entry is
one whole read-compute-write sequence: the TypeScript generators contain no
`await` and no I/O between reading and writing the counter, so under
Node's single-threaded cooperative scheduling each call runs as a single
atomic step and every interleaving of concurrent callers is some such
sequence. -/
def runNonceCalls (step : Nat → Nat → Nat × Nat) (lastNonce : Nat) :
    List Nat → List (Nat × Nat)
  | [] => []
  | now :: rest =>
    let r := step now lastNonce
    (lastNonce, r.1) :: runNonceCalls step r.2 rest

/-! ## Safety-mode policy (base-exchange-service.ts, and the
`MexcApiService.shouldUseTestMode` variant) -/

/-- The method `BaseExchangeService.shouldUseTestMode()`.  Inputs are the
values the method reads: `envService.getBoolean('app.useTestMode')`
(`boolean | undefined`) and `envService.get('app.environment')`
(`string | undefined`).  Live trading only when the flag is exactly
`false` and the environment is exactly `'production'`. -/
def shouldUseTestMode (useTestMode : Option Bool) (nodeEnv : Option String) : Bool :=
  if useTestMode = some false ∧ nodeEnv = some "production" then false
  else true

/-- Resolution of `envService.get('app.environment') || process.env.NODE_ENV`
in the `MexcApiService.shouldUseTestMode` variant: JavaScript `||` falls
through on the empty string (falsy) as well as on `undefined`. -/
def mexcResolvedEnv (appEnv procNodeEnv : Option String) : Option String :=
  match appEnv with
  | some s => if s = "" then procNodeEnv else some s
  | none => procNodeEnv

/-- The `MexcApiService.shouldUseTestMode()` variant:
`return !(useTestMode === false && nodeEnv === 'production')` where
`nodeEnv` falls back to `process.env.NODE_ENV`. -/
def mexcShouldUseTestMode (useTestMode : Option Bool)
    (appEnv procNodeEnv : Option String) : Bool :=
  let isExplicitlyLiveMode : Bool :=
    decide (useTestMode = some false ∧ mexcResolvedEnv appEnv procNodeEnv = some "production")
  !isExplicitlyLiveMode

/-- The method `EnvService.getBoolean(key)`:
`value ? value.toLowerCase() === 'true' : undefined` over the raw
configured string (`undefined` and the empty string are falsy). -/
def envGetBoolean (raw : Option String) : Option Bool :=
  match raw with
  | none => none
  | some v => if v = "" then none else some (v.toLower = "true")

/-- JavaScript `String.prototype.toUpperCase()` restricted to ASCII (all
asset tickers and currency codes are ASCII), written over the character
list so that it reduces in the kernel. -/
def jsToUpperCase (s : String) : String :=
  ⟨s.data.map Char.toUpper⟩

/-- JavaScript `String.prototype.toLowerCase()` restricted to ASCII,
kernel-reducible. -/
def jsToLowerCase (s : String) : String :=
  ⟨s.data.map Char.toLower⟩

/-- JavaScript `String.prototype.trim()`: strip leading and trailing
whitespace, written over the character list so that it reduces in the
kernel. -/
def jsTrim (s : String) : String :=
  ⟨((s.data.dropWhile Char.isWhitespace).reverse.dropWhile Char.isWhitespace).reverse⟩

/-! ## Credential access and the simple signer (exchange-api-service.ts) -/

/-- The method `ExchangeApiService.getAPIKey(exchange)`: reads
`api.<exchange>.apiKey` from the environment service and throws when the
value is missing or empty (`!apiKey`). -/
def getAPIKey (env : String → Option String) (exchange : String) :
    Except String String :=
  match env ("api." ++ jsToLowerCase exchange ++ ".apiKey") with
  | none => Except.error ("API key not found for exchange: " ++ exchange)
  | some apiKey =>
    if apiKey = "" then Except.error ("API key not found for exchange: " ++ exchange)
    else Except.ok apiKey

/-- The method `ExchangeApiService.getAPISecret(exchange)`: reads
`api.<exchange>.apiSecret` and throws when the value is missing or empty. -/
def getAPISecret (env : String → Option String) (exchange : String) :
    Except String String :=
  match env ("api." ++ jsToLowerCase exchange ++ ".apiSecret") with
  | none => Except.error ("API secret not found for exchange: " ++ exchange)
  | some apiSecret =>
    if apiSecret = "" then Except.error ("API secret not found for exchange: " ++ exchange)
    else Except.ok apiSecret

/-- The method `ExchangeApiService.sign(queryString, apiSecret)`:
`createHmac('sha256', apiSecret).update(queryString).digest('hex')` —
hex HMAC-SHA256 of the literal query string under the UTF-8 secret, with
no validation of the secret and no other inputs. -/
def sign (queryString apiSecret : String) : String :=
  hexEncode (hmacSha256 (strBytes apiSecret) (strBytes queryString))

/-! ## Kraken request signer (kraken-api-service.ts) -/

/-- The regular-expression match `postData.match(/nonce=(\d+)/)`: the first
occurrence of `nonce=` that is immediately followed by at least one digit,
capturing the maximal digit run. -/
def extractNonceAux : List Char → Option String
  | [] => none
  | c :: rest =>
    if ("nonce=".data).isPrefixOf (c :: rest) then
      let digits := ((c :: rest).drop 6).takeWhile Char.isDigit
      if digits.isEmpty then extractNonceAux rest else some ⟨digits⟩
    else extractNonceAux rest

/-- Nonce extraction from a post body, per `signKrakenRequest`. -/
def extractNonce (postData : String) : Option String :=
  extractNonceAux postData.data

/-- The method `KrakenApiService.signKrakenRequest(path, postData, apiSecret)`.
When the post body contains no `nonce=<digits>` field the method falls back
to deriving a nonce itself, reading `Date.now()` (`now`) and updating the
shared static counter `globalLastNonce` (`lastNonce`); the result pairs the
returned signature with the counter value after the call. -/
def signKrakenRequest (path postData apiSecret : String)
    (now lastNonce : Nat) : String × Nat :=
  match extractNonce postData with
  | none =>
    let fallbackNonce := max now (lastNonce + 1)
    let apiSha256 := sha256 (strBytes (Nat.repr fallbackNonce ++ postData))
    let apiSha512 := hmacSha512 (base64Decode apiSecret) (strBytes path ++ apiSha256)
    (base64Encode apiSha512, fallbackNonce)
  | some nonce =>
    let apiSha256 := sha256 (strBytes (nonce ++ postData))
    let apiSha512 := hmacSha512 (base64Decode apiSecret) (strBytes path ++ apiSha256)
    (base64Encode apiSha512, lastNonce)

/-- The signature formula of spec §4.3 Variant B, stated from the spec's
words for comparison with `signKrakenRequest`: base64-decode the secret to
raw bytes; message = `urlPath ++ SHA256(nonce_decimal_string ++
postBodyString)` with raw SHA-256 output bytes; signature =
`base64(HMAC-SHA512(decoded_secret_bytes, message))`. -/
def variantBSignature (secret urlPath nonceStr postBody : String) : String :=
  base64Encode (hmacSha512 (base64Decode secret)
    (strBytes urlPath ++ sha256 (strBytes nonceStr ++ strBytes postBody)))

/-! ## Adapter pair construction (kraken-api-service.ts, base-exchange-service.ts) -/

/-- The method `KrakenApiService.mapAssetToKraken(assetName)`: a switch on
the uppercased name; unmapped names fall through to the uppercased name. -/
def mapAssetToKraken (assetName : String) : String :=
  let u := jsToUpperCase assetName
  if u = "BTC" then "XXBT"
  else if u = "ETH" then "XETH"
  else if u = "USD" then "ZUSD"
  else if u = "XLM" then "XXLM"
  else if u = "XRP" then "XXRP"
  else u

/-- The method `KrakenApiService.createPair(asset, to)`: maps both legs
through `mapAssetToKraken` and concatenates. -/
def krakenCreatePair (assetName toCurrency : String) : String :=
  mapAssetToKraken assetName ++ mapAssetToKraken toCurrency

/-- The method `BaseExchangeService.createPair(asset, to)`, which is what
the MEXC adapter uses: plain template concatenation of the raw asset name
and the target currency, with no mapping and no case change. -/
def baseCreatePair (assetName toCurrency : String) : String :=
  assetName ++ toCurrency

/-! ## Balance-fetch request phase with transport trace
(mexc-api-service.ts, kraken-api-service.ts) -/

/-- One observable invocation of the HTTP transport. -/
inductive NetCall
  | serverTimeFetch
  | accountBalanceRequest
deriving DecidableEq, Repr

/-- Outcome of the request-building phase of a `fetchBalance` call: the
result up to the credential check, the transport invocations in order, and
the nonce counter after the call. -/
structure FetchPhaseOutcome where
  result : Except String Unit
  calls : List NetCall
  newLastNonce : Nat
deriving Repr

/-- The request-building phase of `MexcApiService.fetchBalance` (the code
through the credential check, lines 57–69): `getTimeSyncer` performs the
public server-time fetch when no syncer is cached yet, a timestamp nonce is
drawn from the instance counter, then the credentials are checked
(`!apiKey || !apiSecret`) before the authenticated account request is
issued. -/
def mexcFetchBalanceRequestPhase (syncerCached : Bool)
    (apiKey apiSecret exchange : String) (syncedNow lastNonce : Nat) :
    FetchPhaseOutcome :=
  let timeCalls := if syncerCached then [] else [NetCall.serverTimeFetch]
  let ts := ensureUniqueNonce syncedNow lastNonce
  if apiKey = "" ∨ apiSecret = "" then
    ⟨Except.error ("Missing API credentials for " ++ exchange), timeCalls, ts.2⟩
  else
    ⟨Except.ok (), timeCalls ++ [NetCall.accountBalanceRequest], ts.2⟩

/-- The request-building phase of `KrakenApiService.fetchBalance` (lines
133–157): a nonce is generated from the shared counter, the credentials are
fetched and trimmed, and the check `!apiKey || !apiSecret` runs before any
transport use; only then is the authenticated balance request posted. -/
def krakenFetchBalanceRequestPhase (apiKey apiSecret exchange : String)
    (now lastNonce : Nat) : FetchPhaseOutcome :=
  let n := generateUniqueNonce now lastNonce
  let key := jsTrim apiKey
  let secret := jsTrim apiSecret
  if key = "" ∨ secret = "" then
    ⟨Except.error ("Missing API credentials for " ++ exchange), [], n.2⟩
  else
    ⟨Except.ok (), [NetCall.accountBalanceRequest], n.2⟩

/-! ## Helper lemmas: nonce generator runs -/

/-- Both generators' step is the `max(now, last + 1)` update. -/
theorem ensureUniqueNonce_eq_max (t l : Nat) :
    ensureUniqueNonce t l = (max t (l + 1), max t (l + 1)) := by
  unfold ensureUniqueNonce
  split <;> simp only [Prod.mk.injEq] <;> omega

/-- Shorthand for a step function that performs the `max(now, last + 1)`
update and returns the written value. -/
def IsMaxStep (step : Nat → Nat → Nat × Nat) : Prop :=
  ∀ n l, step n l = (max n (l + 1), max n (l + 1))

theorem generateUniqueNonce_isMaxStep : IsMaxStep generateUniqueNonce := by
  intro n l
  rfl

theorem ensureUniqueNonce_isMaxStep : IsMaxStep ensureUniqueNonce := by
  intro n l
  exact ensureUniqueNonce_eq_max n l

theorem runNonceCalls_chain_snd (step : Nat → Nat → Nat × Nat)
    (hstep : IsMaxStep step) (clocks : List Nat) :
    ∀ lastNonce, List.Chain (· < ·) lastNonce
      ((runNonceCalls step lastNonce clocks).map Prod.snd) := by
  induction clocks with
  | nil => intro lastNonce; exact List.Chain.nil
  | cons c rest ih =>
    intro lastNonce
    rw [runNonceCalls, hstep c lastNonce]
    exact List.Chain.cons (by simp) (ih _)

/-- The nonces a run returns are strictly increasing in issuance order. -/
theorem runNonceCalls_pairwise_snd (step : Nat → Nat → Nat × Nat)
    (hstep : IsMaxStep step) (lastNonce : Nat) (clocks : List Nat) :
    List.Pairwise (· < ·) ((runNonceCalls step lastNonce clocks).map Prod.snd) :=
  (List.Pairwise.of_cons
    ((List.chain_iff_pairwise).mp (runNonceCalls_chain_snd step hstep clocks lastNonce)))

theorem runNonceCalls_chain_fst (step : Nat → Nat → Nat × Nat)
    (hstep : IsMaxStep step) (clocks : List Nat) :
    ∀ lastNonce prev, prev < lastNonce → List.Chain (· < ·) prev
      ((runNonceCalls step lastNonce clocks).map Prod.fst) := by
  induction clocks with
  | nil => intro lastNonce prev _; exact List.Chain.nil
  | cons c rest ih =>
    intro lastNonce prev hprev
    rw [runNonceCalls, hstep c lastNonce]
    exact List.Chain.cons hprev (ih _ _ (by simp))

/-- The counter values the successive calls of a run observe are strictly
increasing, hence pairwise distinct. -/
theorem runNonceCalls_pairwise_fst (step : Nat → Nat → Nat × Nat)
    (hstep : IsMaxStep step) (lastNonce : Nat) (clocks : List Nat) :
    List.Pairwise (· < ·) ((runNonceCalls step lastNonce clocks).map Prod.fst) := by
  cases clocks with
  | nil => simp [runNonceCalls]
  | cons c rest =>
    rw [runNonceCalls, hstep c lastNonce, List.map_cons]
    exact (List.chain_iff_pairwise).mp
      (runNonceCalls_chain_fst step hstep rest _ lastNonce (by simp))

/-- Each call of a run observes exactly the counter value the previous call
wrote. -/
theorem runNonceCalls_chain_write_read (step : Nat → Nat → Nat × Nat)
    (hstep : IsMaxStep step) (clocks : List Nat) :
    ∀ lastNonce, List.Chain' (fun p q => q.1 = p.2)
      (runNonceCalls step lastNonce clocks) := by
  induction clocks with
  | nil => intro lastNonce; exact List.chain'_nil
  | cons c rest ih =>
    intro lastNonce
    rw [runNonceCalls, List.chain'_cons']
    refine ⟨?_, ih _⟩
    intro y hy
    cases rest with
    | nil => simp [runNonceCalls] at hy
    | cons c2 r2 =>
      simp only [runNonceCalls, List.head?_cons, Option.mem_def, Option.some.injEq] at hy
      subst hy
      rw [hstep c lastNonce]

/-! ## Claim theorems -/

/-- C1: every call of `KrakenApiService.generateUniqueNonce` (shared static
counter) and of `MexcApiService.ensureUniqueNonce` (instance counter)
returns `max(currentClockMillis, lastIssued + 1)` and updates the counter
to that value; consequently the values returned by any sequence of calls
are strictly increasing in issuance order with no duplicates, and a call
made after the clock has advanced past the last issued value returns the
clock time itself rather than a stale incremented counter. -/
theorem nonce_generators_max_formula_and_monotonic :
    (∀ now lastNonce, generateUniqueNonce now lastNonce =
      (max now (lastNonce + 1), max now (lastNonce + 1)))
    ∧ (∀ ts lastNonce, ensureUniqueNonce ts lastNonce =
      (max ts (lastNonce + 1), max ts (lastNonce + 1)))
    ∧ (∀ lastNonce clocks, List.Pairwise (· < ·)
      ((runNonceCalls generateUniqueNonce lastNonce clocks).map Prod.snd))
    ∧ (∀ lastNonce clocks, List.Pairwise (· < ·)
      ((runNonceCalls ensureUniqueNonce lastNonce clocks).map Prod.snd))
    ∧ (∀ now lastNonce, lastNonce < now →
      (generateUniqueNonce now lastNonce).1 = now
      ∧ (ensureUniqueNonce now lastNonce).1 = now) := by
  refine ⟨generateUniqueNonce_isMaxStep, ensureUniqueNonce_isMaxStep,
    fun l c => runNonceCalls_pairwise_snd _ generateUniqueNonce_isMaxStep l c,
    fun l c => runNonceCalls_pairwise_snd _ ensureUniqueNonce_isMaxStep l c,
    fun now lastNonce h => ?_⟩
  rw [generateUniqueNonce_isMaxStep now lastNonce, ensureUniqueNonce_isMaxStep now lastNonce]
  simp
  omega

/-- Witness for C1: a concrete call after the clock (1000) has advanced past
the last issued value (5) returns the clock time. -/
theorem nonce_generators_max_formula_and_monotonic_witness :
    (5 : Nat) < 1000
    ∧ (generateUniqueNonce 1000 5).1 = 1000
    ∧ (ensureUniqueNonce 1000 5).1 = 1000 :=
  ⟨by decide, nonce_generators_max_formula_and_monotonic.2.2.2.2 1000 5 (by decide)⟩

/-- C3: in the single-threaded cooperative model — justified because the
TypeScript `generateUniqueNonce` contains no `await` and no I/O, so each
read-compute-write sequence is one atomic step (`runNonceCalls` entry) —
every interleaving of concurrent callers of the shared generator yields
pairwise-distinct observed counter values (no two callers ever read the
same `lastIssued`), and each call reads exactly the value the previous
call wrote. -/
theorem nonce_read_compute_write_atomic :
    ∀ lastNonce clocks,
      List.Pairwise (· < ·)
        ((runNonceCalls generateUniqueNonce lastNonce clocks).map Prod.fst)
      ∧ List.Chain' (fun p q => q.1 = p.2)
        (runNonceCalls generateUniqueNonce lastNonce clocks) :=
  fun lastNonce clocks =>
    ⟨runNonceCalls_pairwise_fst _ generateUniqueNonce_isMaxStep lastNonce clocks,
     runNonceCalls_chain_write_read _ generateUniqueNonce_isMaxStep clocks lastNonce⟩

/-- C2: both `shouldUseTestMode` implementations resolve to test mode
(`true`) on every configuration combination except the single one where
live trading is explicitly enabled (`app.useTestMode` read as exactly
`false`) and the environment resolves to exactly `"production"`; missing
or other values always resolve to test mode. -/
theorem shouldUseTestMode_fail_safe :
    ∀ (useTestMode : Option Bool) (nodeEnv : Option String),
      (shouldUseTestMode useTestMode nodeEnv = false ↔
        (useTestMode = some false ∧ nodeEnv = some "production"))
      ∧ ∀ (procNodeEnv : Option String),
        (mexcShouldUseTestMode useTestMode nodeEnv procNodeEnv = false ↔
          (useTestMode = some false ∧ mexcResolvedEnv nodeEnv procNodeEnv = some "production")) := by
  intro u e
  refine ⟨?_, fun p => ?_⟩
  · by_cases h : u = some false ∧ e = some "production" <;>
      simp [shouldUseTestMode, h]
  · by_cases h : u = some false ∧ mexcResolvedEnv e p = some "production" <;>
      simp [mexcShouldUseTestMode, h]

/-- C4: the clock synchronizer's synchronized timestamp is always
`localNow + cachedTimeOffset`; the offset is `0` before any
`initFromServer` call (fallback to local time, not an error), and after
`initFromServer(serverTime)` it is `serverTime - localNow`-at-init,
independent of any previous state (re-calling recomputes); the timestamp
string is exactly the decimal rendering of the synchronized value. -/
theorem exchangeTimeSyncer_spec :
    (∀ (st : ExchangeTimeSyncer) (localNow : Int),
      st.getSynchronizedTimestamp localNow = localNow + st.cachedTimeOffset)
    ∧ ExchangeTimeSyncer.new.cachedTimeOffset = 0
    ∧ (∀ localNow : Int, ExchangeTimeSyncer.new.getSynchronizedTimestamp localNow = localNow)
    ∧ (∀ (st : ExchangeTimeSyncer) (serverTime localNowAtInit : Int),
      (st.initFromServer serverTime localNowAtInit).cachedTimeOffset
        = serverTime - localNowAtInit)
    ∧ (∀ (st : ExchangeTimeSyncer) (serverTime localNowAtInit localNow : Int),
      (st.initFromServer serverTime localNowAtInit).getSynchronizedTimestamp localNow
        = localNow + (serverTime - localNowAtInit))
    ∧ (∀ (st st' : ExchangeTimeSyncer) (serverTime localNowAtInit : Int),
      st.initFromServer serverTime localNowAtInit
        = st'.initFromServer serverTime localNowAtInit)
    ∧ (∀ (st : ExchangeTimeSyncer) (localNow : Int),
      st.getTimestampString localNow = toString (st.getSynchronizedTimestamp localNow)) :=
  ⟨fun _ _ => rfl,
   rfl,
   fun localNow => by simp [ExchangeTimeSyncer.getSynchronizedTimestamp, ExchangeTimeSyncer.new],
   fun _ _ _ => rfl,
   fun _ _ _ _ => rfl,
   fun _ _ _ _ => rfl,
   fun _ _ => rfl⟩

/-! ## Helper lemmas: byte encodings and nonce extraction -/

theorem strBytes_append (s t : String) : strBytes (s ++ t) = strBytes s ++ strBytes t := by
  simp [strBytes, String.data_append]

theorem digitChar_isDigit (n : Nat) (h : n < 10) : (Nat.digitChar n).isDigit := by
  interval_cases n <;> decide

theorem toDigitsCore_digits (fuel n : Nat) :
    ∀ ds : List Char, (∀ c ∈ ds, c.isDigit) →
      ∀ c ∈ Nat.toDigitsCore 10 fuel n ds, c.isDigit := by
  induction fuel generalizing n with
  | zero => intro ds hds; exact hds
  | succ fuel ih =>
    intro ds hds c hc
    rw [Nat.toDigitsCore] at hc
    by_cases h0 : n / 10 = 0
    · rw [if_pos h0] at hc
      rcases List.mem_cons.mp hc with hc | hc
      · subst hc; exact digitChar_isDigit _ (Nat.mod_lt _ (by norm_num))
      · exact hds _ hc
    · rw [if_neg h0] at hc
      refine ih _ _ ?_ _ hc
      intro c' hc'
      rcases List.mem_cons.mp hc' with hc' | hc'
      · subst hc'; exact digitChar_isDigit _ (Nat.mod_lt _ (by norm_num))
      · exact hds _ hc'

/-- Every character of the decimal rendering of a natural number is a digit. -/
theorem repr_all_digits (n : Nat) : ∀ c ∈ (Nat.repr n).data, c.isDigit := by
  intro c hc
  exact toDigitsCore_digits (n + 1) n [] (by simp) c hc

theorem toDigitsCore_ne_nil (fuel n : Nat) :
    ∀ ds : List Char, ds ≠ [] → Nat.toDigitsCore 10 fuel n ds ≠ [] := by
  induction fuel generalizing n with
  | zero => intro ds h; exact h
  | succ fuel ih =>
    intro ds h
    rw [Nat.toDigitsCore]
    by_cases h0 : n / 10 = 0
    · rw [if_pos h0]; simp
    · rw [if_neg h0]; exact ih _ _ (by simp)

/-- The decimal rendering of a natural number is never empty. -/
theorem repr_ne_nil (n : Nat) : (Nat.repr n).data ≠ [] := by
  show Nat.toDigitsCore 10 (n + 1) n [] ≠ []
  rw [Nat.toDigitsCore]
  by_cases h0 : n / 10 = 0
  · rw [if_pos h0]; simp
  · rw [if_neg h0]; exact toDigitsCore_ne_nil _ _ _ (by simp)

theorem extractNonceAux_nonce_body (d : List Char) (hne : d ≠ [])
    (hdig : ∀ c ∈ d, c.isDigit) :
    extractNonceAux ('n' :: 'o' :: 'n' :: 'c' :: 'e' :: '=' :: d) = some ⟨d⟩ := by
  rw [extractNonceAux]
  have hpre : (("nonce=".data).isPrefixOf ('n' :: 'o' :: 'n' :: 'c' :: 'e' :: '=' :: d)) = true := by
    simp [List.isPrefixOf]
  rw [hpre]
  simp only [if_true]
  have hdrop : (('n' :: 'o' :: 'n' :: 'c' :: 'e' :: '=' :: d).drop 6) = d := rfl
  rw [hdrop]
  rw [List.takeWhile_eq_self_iff.mpr hdig]
  have hempty : d.isEmpty = false := by simp [List.isEmpty_iff]; exact hne
  rw [hempty]
  simp

/-- Extraction inverts the body builder: a post body of the exact shape
`nonce=<digits>` yields that digit string back. -/
theorem extractNonce_nonce_body (d : String) (hne : d.data ≠ [])
    (hdig : ∀ c ∈ d.data, c.isDigit) :
    extractNonce ("nonce=" ++ d) = some d := by
  rw [extractNonce]
  have hdata : ("nonce=" ++ d).data = 'n' :: 'o' :: 'n' :: 'c' :: 'e' :: '=' :: d.data := by
    rw [String.data_append]; rfl
  rw [hdata]
  exact extractNonceAux_nonce_body d.data hne hdig

/-- C5: for every path, post-body string and secret whose body carries a
`nonce=<digits>` field, `signKrakenRequest` computes exactly the spec's
Variant B signature: base64-decode the secret to raw key bytes, message =
path bytes concatenated with the raw SHA-256 digest of (nonce decimal
string ++ post body), signature = base64 of HMAC-SHA512 of the message
under the decoded key — where the nonce is the one extracted from the very
post body being signed; and the body `fetchBalance` builds
(`nonce=<decimal>`) always round-trips through that extraction. -/
theorem signKrakenRequest_variantB :
    (∀ (path postData apiSecret nonce : String) (now lastNonce : Nat),
      extractNonce postData = some nonce →
      (signKrakenRequest path postData apiSecret now lastNonce).1
        = variantBSignature apiSecret path nonce postData)
    ∧ (∀ n : Nat, extractNonce ("nonce=" ++ Nat.repr n) = some (Nat.repr n)) := by
  constructor
  · intro path postData apiSecret nonce now lastNonce h
    rw [signKrakenRequest, h, variantBSignature]
    simp [strBytes_append]
  · intro n
    exact extractNonce_nonce_body (Nat.repr n) (repr_ne_nil n) (repr_all_digits n)

/-- Witness for C5 at a concrete request: body `nonce=123`, path
`/0/private/Balance`, base64 secret `c2VjcmV0`. -/
theorem signKrakenRequest_variantB_witness :
    extractNonce "nonce=123" = some "123"
    ∧ (signKrakenRequest "/0/private/Balance" "nonce=123" "c2VjcmV0" 0 0).1
      = variantBSignature "c2VjcmV0" "/0/private/Balance" "123" "nonce=123" :=
  ⟨by decide, signKrakenRequest_variantB.1 "/0/private/Balance" "nonce=123" "c2VjcmV0"
    "123" 0 0 (by decide)⟩

/-! ## Helper lemmas: digest and encoding lengths -/

theorem beBytes_length (n x : Nat) : (beBytes n x).length = n := by
  induction n generalizing x with
  | zero => rfl
  | succ n ih => simp [beBytes, ih]

theorem stateBytes_length (bytesPerWord : Nat) (st : ShaState) :
    (stateBytes bytesPerWord st).length = 8 * bytesPerWord := by
  simp [stateBytes, beBytes_length]
  omega

/-- Every SHA-256 digest is 32 bytes. -/
theorem sha256_length (msg : List Nat) : (sha256 msg).length = 32 :=
  stateBytes_length 4 _

/-- Every SHA-512 digest is 64 bytes. -/
theorem sha512_length (msg : List Nat) : (sha512 msg).length = 64 :=
  stateBytes_length 8 _

theorem hexEncode_length (bytes : List Nat) :
    (hexEncode bytes).length = 2 * bytes.length := by
  show (bytes.flatMap fun b => [hexDigit (b / 16), hexDigit (b % 16)]).length
    = 2 * bytes.length
  induction bytes with
  | nil => rfl
  | cons b rest ih => simp [ih]; omega

theorem base64EncodeChars_length (bytes : List Nat) :
    (base64EncodeChars bytes).length = 4 * ((bytes.length + 2) / 3) := by
  induction bytes using base64EncodeChars.induct with
  | case1 => rfl
  | case2 a => simp [base64EncodeChars]
  | case3 a b => simp [base64EncodeChars]
  | case4 a b c rest ih => simp [base64EncodeChars, ih]; omega

theorem base64Encode_length (bytes : List Nat) :
    (base64Encode bytes).length = 4 * ((bytes.length + 2) / 3) :=
  base64EncodeChars_length bytes

/-! ## C7: secret validation in the signers -/

/-- C7 counterexample: the claim says an empty or malformed secret makes the
sign operation fail with an `InvalidCredential` error.  In fact neither
signer validates the secret: the MEXC signer with the empty secret and the
Kraken signer with the non-base64 secret `"!!!"` (which `Buffer.from(…,
'base64')` silently decodes to an empty key) both return an ordinary
signature. -/
theorem sign_no_validation_counterexample :
    sign "timestamp=1" ""
      = "e8ef26a86cdb81c478e65cee82715c04bbc90569a997e9e4fa97cea27eeee067"
    ∧ base64Decode "!!!" = []
    ∧ (signKrakenRequest "/0/private/Balance" "nonce=1" "!!!" 0 0).1
      = "uWJrDtq+nW0NaI80OcOLFbqq1sh+7uBLwPmaCbZvqgPaJ+0+otKVG4pDhffC8KYfbZqlsVgy0vMd1fOFsemscA==" := by
  refine ⟨?_, by decide, ?_⟩
  · set_option maxRecDepth 40000 in decide
  · set_option maxRecDepth 40000 in decide

/-- C7 amended: the sign operations never fail and perform no validation of
the secret: for every secret — including the empty string and strings that
are not valid base64, which the lenient decoder silently reduces — a
full-size signature is produced (64 hex characters for the MEXC signer,
88 base64 characters for the Kraken signer). -/
theorem sign_total_no_validation :
    (∀ queryString apiSecret : String, (sign queryString apiSecret).length = 64)
    ∧ (∀ (path postData apiSecret : String) (now lastNonce : Nat),
      ((signKrakenRequest path postData apiSecret now lastNonce).1).length = 88) := by
  constructor
  · intro q s
    show (hexEncode (hmacSha256 (strBytes s) (strBytes q))).length = 64
    rw [hexEncode_length]
    show 2 * (sha256 _).length = 64
    rw [sha256_length]
  · intro path postData apiSecret now lastNonce
    rcases h : extractNonce postData with _ | nonce <;>
      · rw [signKrakenRequest, h]
        show (base64Encode (hmacSha512 _ _)).length = 88
        rw [base64Encode_length]
        show 4 * (((sha512 _).length + 2) / 3) = 88
        rw [sha512_length]

/-! ## C8: purity of the sign operations -/

/-- C8 counterexample: the claim says every path of `signKrakenRequest` is
pure (no clock read, no mutation of the shared nonce counter).  On the
fallback path — post body `foo=1` carries no nonce field — the call at
clock 100 with counter 200 writes 201 into the shared counter, and the
same-argument call at clock 300 writes 300: the result depends on the wall
clock and the counter is mutated. -/
theorem signKrakenRequest_fallback_impure_counterexample :
    extractNonce "foo=1" = none
    ∧ (signKrakenRequest "/0/private/AddOrder" "foo=1" "" 100 200).2 = 201
    ∧ (201 : Nat) ≠ 200
    ∧ (signKrakenRequest "/0/private/AddOrder" "foo=1" "" 300 200).2 = 300
    ∧ (300 : Nat) ≠ 201 := by
  refine ⟨by decide, ?_, by decide, ?_, by decide⟩
  · set_option maxRecDepth 40000 in decide
  · set_option maxRecDepth 40000 in decide

/-- C8 amended: the MEXC signer is a pure function of its two string
arguments by construction (no clock and no counter appear among its
inputs), and the Kraken signer is pure and deterministic on its main path:
whenever the post body carries a `nonce=<digits>` field, the signature is
independent of the wall clock and of the shared counter, and the counter
is left unchanged.  Only the no-nonce fallback path reads the clock and
mutates the counter, writing `max(now, lastNonce + 1)`. -/
theorem signKrakenRequest_main_path_pure :
    (∀ (path postData apiSecret nonce : String) (now1 lastNonce1 now2 lastNonce2 : Nat),
      extractNonce postData = some nonce →
      (signKrakenRequest path postData apiSecret now1 lastNonce1).1
        = (signKrakenRequest path postData apiSecret now2 lastNonce2).1
      ∧ (signKrakenRequest path postData apiSecret now1 lastNonce1).2 = lastNonce1)
    ∧ (∀ (path postData apiSecret : String) (now lastNonce : Nat),
      extractNonce postData = none →
      (signKrakenRequest path postData apiSecret now lastNonce).2
        = max now (lastNonce + 1)) := by
  constructor
  · intro path postData apiSecret nonce now1 l1 now2 l2 h
    rw [signKrakenRequest, signKrakenRequest, h]
    exact ⟨rfl, rfl⟩
  · intro path postData apiSecret now lastNonce h
    rw [signKrakenRequest, h]

/-- Witness for C8 (amended): a concrete nonce-carrying body signed under
two different clock/counter states yields the same signature and leaves
the counter (7) unchanged. -/
theorem signKrakenRequest_main_path_pure_witness :
    extractNonce "nonce=9" = some "9"
    ∧ ((signKrakenRequest "/p" "nonce=9" "c2VjcmV0" 1 7).1
        = (signKrakenRequest "/p" "nonce=9" "c2VjcmV0" 55 1234).1
      ∧ (signKrakenRequest "/p" "nonce=9" "c2VjcmV0" 1 7).2 = 7) :=
  ⟨by decide, signKrakenRequest_main_path_pure.1 "/p" "nonce=9" "c2VjcmV0" "9" 1 7 55 1234
    (by decide)⟩

/-! ## C9: pair construction -/

/-- C9 counterexample: the claim says an asset absent from the map passes
through uppercased on both adapters, but the MEXC adapter's `createPair`
(inherited from `BaseExchangeService`) concatenates the raw name with no
case change: the unmapped lowercase ticker `doge` yields `dogeUSDT`, not
`DOGEUSDT`. -/
theorem createPair_uppercase_counterexample :
    baseCreatePair "doge" "USDT" = "dogeUSDT"
    ∧ "dogeUSDT" ≠ "DOGEUSDT" := by
  exact ⟨rfl, by decide⟩

/-- C9 amended: `createPair` is a pure function on both adapters; the
Kraken adapter maps both legs through its asset-symbol table and
uppercases unmapped names, while the MEXC adapter concatenates both legs
verbatim (no map, no case change).  The three concrete examples of the
claim all hold: `BTC/USDT` gives `XXBTUSDT` on Kraken and `BTCUSDT` on
MEXC, and the unmapped `DOGE` gives `DOGEUSDT` on both. -/
theorem createPair_mapping :
    krakenCreatePair "BTC" "USDT" = "XXBTUSDT"
    ∧ baseCreatePair "BTC" "USDT" = "BTCUSDT"
    ∧ krakenCreatePair "DOGE" "USDT" = "DOGEUSDT"
    ∧ baseCreatePair "DOGE" "USDT" = "DOGEUSDT"
    ∧ (∀ assetName toCurrency : String,
      jsToUpperCase assetName ∉ (["BTC", "ETH", "USD", "XLM", "XRP"] : List String) →
      krakenCreatePair assetName toCurrency
        = jsToUpperCase assetName ++ mapAssetToKraken toCurrency)
    ∧ (∀ assetName toCurrency : String,
      baseCreatePair assetName toCurrency = assetName ++ toCurrency) := by
  refine ⟨by decide, by decide, by decide, by decide, ?_, fun _ _ => rfl⟩
  intro assetName toCurrency h
  simp only [List.mem_cons, List.not_mem_nil, or_false, not_or] at h
  obtain ⟨h1, h2, h3, h4, h5⟩ := h
  rw [krakenCreatePair, mapAssetToKraken]
  simp [h1, h2, h3, h4, h5]

/-- Witness for C9 (amended): the unmapped ticker `PEPE` passes through the
Kraken map uppercased. -/
theorem createPair_mapping_witness :
    jsToUpperCase "PEPE" ∉ (["BTC", "ETH", "USD", "XLM", "XRP"] : List String)
    ∧ krakenCreatePair "PEPE" "USDT" = jsToUpperCase "PEPE" ++ mapAssetToKraken "USDT" :=
  ⟨by decide, createPair_mapping.2.2.2.2.1 "PEPE" "USDT" (by decide)⟩

/-! ## C6: credential precondition versus transport invocations -/

/-- C6 counterexample: the claim says `fetchBalance` with empty credentials
fails before any network call on both adapters, the transport observing
zero invocations.  On the MEXC adapter's first call (no cached time
syncer) the public server-time endpoint is contacted before the credential
check: the transport observes one invocation. -/
theorem fetchBalance_credentials_counterexample :
    (mexcFetchBalanceRequestPhase false "" "secret" "mexc" 5 0).result
      = Except.error "Missing API credentials for mexc"
    ∧ (mexcFetchBalanceRequestPhase false "" "secret" "mexc" 5 0).calls
      = [NetCall.serverTimeFetch]
    ∧ (mexcFetchBalanceRequestPhase false "" "secret" "mexc" 5 0).calls ≠ [] := by
  exact ⟨rfl, rfl, by decide⟩

/-- C6 amended: with an empty API key or secret, `fetchBalance` fails with
the missing-credentials error before the authenticated balance request is
ever issued on both adapters.  The Kraken adapter makes no transport call
at all; the MEXC adapter never issues the account request either, but on
first use (no cached syncer) it has already contacted the public
server-time endpoint before the check — with a cached syncer it too makes
no call. -/
theorem fetchBalance_missing_credentials :
    ∀ (apiKey apiSecret exchange : String) (syncerCached : Bool)
      (syncedNow now lastNonce : Nat),
      apiKey = "" ∨ apiSecret = "" →
      ((krakenFetchBalanceRequestPhase apiKey apiSecret exchange now lastNonce).result
        = Except.error ("Missing API credentials for " ++ exchange)
      ∧ (krakenFetchBalanceRequestPhase apiKey apiSecret exchange now lastNonce).calls = []
      ∧ (mexcFetchBalanceRequestPhase syncerCached apiKey apiSecret exchange
          syncedNow lastNonce).result
        = Except.error ("Missing API credentials for " ++ exchange)
      ∧ NetCall.accountBalanceRequest
        ∉ (mexcFetchBalanceRequestPhase syncerCached apiKey apiSecret exchange
            syncedNow lastNonce).calls
      ∧ (syncerCached = true →
        (mexcFetchBalanceRequestPhase syncerCached apiKey apiSecret exchange
          syncedNow lastNonce).calls = [])) := by
  intro apiKey apiSecret exchange syncerCached syncedNow now lastNonce h
  have hcond : jsTrim apiKey = "" ∨ jsTrim apiSecret = "" := by
    rcases h with h | h <;> [left; right] <;> simp [h, jsTrim]
  refine ⟨?_, ?_, ?_, ?_, ?_⟩ <;>
    simp only [krakenFetchBalanceRequestPhase, mexcFetchBalanceRequestPhase,
      if_pos hcond, if_pos h]
  · intro hmem
    rcases hmem with hmem
    cases syncerCached <;> simp_all
  · intro hc
    subst hc
    simp

/-- Witness for C6 (amended): concrete empty API key on a fresh MEXC
adapter and on the Kraken adapter. -/
theorem fetchBalance_missing_credentials_witness :
    (("" : String) = "" ∨ ("secret" : String) = "")
    ∧ (krakenFetchBalanceRequestPhase "" "secret" "kraken" 7 3).result
      = Except.error "Missing API credentials for kraken"
    ∧ (krakenFetchBalanceRequestPhase "" "secret" "kraken" 7 3).calls = [] :=
  ⟨Or.inl rfl,
   (fetchBalance_missing_credentials "" "secret" "kraken" false 5 7 3 (Or.inl rfl)).1,
   (fetchBalance_missing_credentials "" "secret" "kraken" false 5 7 3 (Or.inl rfl)).2.1⟩

/-! ## C10: non-emptiness of delivered credentials -/

/-- C10 counterexample: the claim says the adapters' missing-credentials
branches are unreachable whenever credentials come from
`ExchangeApiService`.  With every configured value the single space `" "`,
`getAPIKey`/`getAPISecret` succeed (a space is truthy), yet the Kraken
adapter trims the credentials and its missing-credentials branch fires. -/
theorem credentials_nonempty_counterexample :
    getAPIKey (fun _ => some " ") "kraken" = Except.ok " "
    ∧ getAPISecret (fun _ => some " ") "kraken" = Except.ok " "
    ∧ (krakenFetchBalanceRequestPhase " " " " "kraken" 0 0).result
      = Except.error "Missing API credentials for kraken" := by
  exact ⟨rfl, rfl, rfl⟩

/-- C10 amended: every credential string `getAPIKey`/`getAPISecret` returns
is non-empty (absent or empty configured values raise the not-found error
instead), so the MEXC adapter's `!apiKey || !apiSecret` branch is
unreachable for credentials obtained through `ExchangeApiService`; the
Kraken adapter trims the credentials first, so its branch stays
unreachable only for credentials that are non-empty after trimming —
whitespace-only configured values still reach it. -/
theorem credentials_nonempty :
    (∀ (env : String → Option String) (exchange k : String),
      getAPIKey env exchange = Except.ok k → k ≠ "")
    ∧ (∀ (env : String → Option String) (exchange s : String),
      getAPISecret env exchange = Except.ok s → s ≠ "")
    ∧ (∀ (syncerCached : Bool) (apiKey apiSecret exchange : String)
        (syncedNow lastNonce : Nat),
      apiKey ≠ "" → apiSecret ≠ "" →
      (mexcFetchBalanceRequestPhase syncerCached apiKey apiSecret exchange
        syncedNow lastNonce).result = Except.ok ())
    ∧ (∀ (apiKey apiSecret exchange : String) (now lastNonce : Nat),
      jsTrim apiKey ≠ "" → jsTrim apiSecret ≠ "" →
      (krakenFetchBalanceRequestPhase apiKey apiSecret exchange
        now lastNonce).result = Except.ok ()) := by
  refine ⟨?_, ?_, ?_, ?_⟩
  · intro env exchange k h
    rw [getAPIKey] at h
    cases henv : env ("api." ++ jsToLowerCase exchange ++ ".apiKey") with
    | none => rw [henv] at h; exact absurd h (by simp)
    | some v =>
      rw [henv] at h
      have h' : (if v = "" then
          (Except.error ("API key not found for exchange: " ++ exchange) : Except String String)
          else Except.ok v) = Except.ok k := h
      by_cases hv : v = ""
      · rw [if_pos hv] at h'; exact absurd h' (by simp)
      · rw [if_neg hv] at h'
        obtain rfl : v = k := by simpa using h'
        exact hv
  · intro env exchange s h
    rw [getAPISecret] at h
    cases henv : env ("api." ++ jsToLowerCase exchange ++ ".apiSecret") with
    | none => rw [henv] at h; exact absurd h (by simp)
    | some v =>
      rw [henv] at h
      have h' : (if v = "" then
          (Except.error ("API secret not found for exchange: " ++ exchange) : Except String String)
          else Except.ok v) = Except.ok s := h
      by_cases hv : v = ""
      · rw [if_pos hv] at h'; exact absurd h' (by simp)
      · rw [if_neg hv] at h'
        obtain rfl : v = s := by simpa using h'
        exact hv
  · intro syncerCached apiKey apiSecret exchange syncedNow lastNonce hk hs
    simp only [mexcFetchBalanceRequestPhase]
    rw [if_neg (by simp [hk, hs])]
  · intro apiKey apiSecret exchange now lastNonce hk hs
    simp only [krakenFetchBalanceRequestPhase]
    rw [if_neg (by simp [hk, hs])]

/-- Witness for C10 (amended): a concrete environment delivering proper
credentials makes both adapters pass the check. -/
theorem credentials_nonempty_witness :
    getAPIKey (fun _ => some "k1") "mexc" = Except.ok "k1"
    ∧ ("k1" : String) ≠ ""
    ∧ (krakenFetchBalanceRequestPhase "k1" "s1" "kraken" 4 9).result = Except.ok () :=
  ⟨rfl, credentials_nonempty.1 (fun _ => some "k1") "mexc" "k1" rfl,
   credentials_nonempty.2.2.2 "k1" "s1" "kraken" 4 9 (by decide) (by decide)⟩
